import Mathlib

/-!
# Verification of the MCP orchestration engine

Shallow embedding of `src/lovechild-mcp/src/integrations/mcp-orchestrator.ts`:
the task-routing and workflow-orchestration engine (rule matcher, call
executor with cache and fallback, sequence executor, workflow engine).

JavaScript dynamic values (`Record<string, any>` payloads, `result.data`)
are modelled by the inductive type `JsValue`; JS objects are association
lists preserving insertion order, with JS spread/assignment semantics.
Time (`Date.now()`) is threaded explicitly: the external capability channel
(`call_mcp_tool`) is an oracle that, given the current time, the resolved
server name and the JSON-serialized payload, returns either a result value
or an error, together with the call's wall-clock duration.
-/

namespace Orch

/-- Model of a JavaScript/JSON dynamic value (`any`). -/
inductive JsValue where
  | undefined : JsValue
  | null : JsValue
  | bool (b : Bool) : JsValue
  | num (n : Int) : JsValue
  | str (s : String) : JsValue
  | obj (fields : List (String × JsValue)) : JsValue
  | arr (elems : List JsValue) : JsValue

/-- A JavaScript object (`Record<string, any>`): key/value pairs in insertion
order, keys unique by construction of the operations below. -/
abbrev Obj := List (String × JsValue)

/-- Property lookup `o[k]` returning `none` when the key is absent. -/
def objLookup : Obj → String → Option JsValue
  | [], _ => none
  | (k', v') :: rest, k => if k' = k then some v' else objLookup rest k

/-- Property read `o[k]`: an absent key reads as `undefined`. -/
def objGet (o : Obj) (k : String) : JsValue :=
  (objLookup o k).getD .undefined

/-- Property assignment `o[k] = v`: updates the value in place when the key
exists (keeping its position, as JS objects do), otherwise appends. -/
def objSet : Obj → String → JsValue → Obj
  | [], k, v => [(k, v)]
  | (k', v') :: rest, k, v =>
      if k' = k then (k, v) :: rest else (k', v') :: objSet rest k v

/-- Object spread `{ ...a, ...b }` where `b` is a field list: each field of
`b`, in order, is assigned into `a`. -/
def objMerge (a b : Obj) : Obj :=
  b.foldl (fun acc kv => objSet acc kv.1 kv.2) a

/-- JavaScript truthiness of a value. -/
def truthy : JsValue → Bool
  | .undefined => false
  | .null => false
  | .bool b => b
  | .num n => n != 0
  | .str s => s != ""
  | .obj _ => true
  | .arr _ => true

/-- Spread of an arbitrary value into an object, `{ ...base, ...v }`:
objects merge their fields, arrays and strings contribute index-keyed
entries, primitives contribute nothing. -/
def jsSpread (base : Obj) (v : JsValue) : Obj :=
  match v with
  | .obj fs => objMerge base fs
  | .arr es => objMerge base (es.enum.map (fun p => (toString p.1, p.2)))
  | .str s => objMerge base (s.data.enum.map (fun p => (toString p.1, JsValue.str p.2.toString)))
  | _ => base

/-- One hexadecimal digit. -/
def hexDigit (n : Nat) : Char :=
  if n < 10 then Char.ofNat (48 + n) else Char.ofNat (87 + n)

/-- JSON escaping of one character, as `JSON.stringify` performs it. -/
def escChar (c : Char) : String :=
  if c = '"' then "\\\""
  else if c = '\\' then "\\\\"
  else if c = '\n' then "\\n"
  else if c = '\r' then "\\r"
  else if c = '\t' then "\\t"
  else if c = '\x08' then "\\b"
  else if c = '\x0c' then "\\f"
  else if c.toNat < 32 then
    "\\u00" ++ String.mk [hexDigit (c.toNat / 16), hexDigit (c.toNat % 16)]
  else c.toString

/-- JSON quoting of a string literal. -/
def jsonQuote (s : String) : String :=
  "\"" ++ String.join (s.data.map escChar) ++ "\""

mutual
/-- Model of `JSON.stringify` on a value; `none` for `undefined` (which
`JSON.stringify` omits inside objects and maps to no output at top level). -/
def jsonStringify : JsValue → Option String
  | .undefined => none
  | .null => some "null"
  | .bool b => some (if b then "true" else "false")
  | .num n => some (toString n)
  | .str s => some (jsonQuote s)
  | .obj fs => some ("\x7b" ++ jsonFields fs ++ "\x7d")
  | .arr es => some ("[" ++ jsonElems es ++ "]")

/-- Serialize object fields: fields whose value is `undefined` are omitted,
the rest are comma-separated `"key":value` items in insertion order. -/
def jsonFields : List (String × JsValue) → String
  | [] => ""
  | (k, v) :: rest =>
      match jsonStringify v with
      | none => jsonFields rest
      | some sv =>
          jsonQuote k ++ ":" ++ sv ++
            (if jsonFields rest = "" then "" else "," ++ jsonFields rest)

/-- Serialize array elements: `undefined` elements serialize as `null`. -/
def jsonElems : List JsValue → String
  | [] => ""
  | v :: rest =>
      ((jsonStringify v).getD "null") ++
        (if rest.isEmpty then "" else "," ++ jsonElems rest)
end

/-- Serialization of a payload object via `JSON.stringify`: always defined. -/
def objStringify (o : Obj) : String :=
  (jsonStringify (.obj o)).getD "undefined"

/-- The cache key computed by `executeSingleCall`:
`mcpServer + ":" + tool + ":" + JSON.stringify(payload)`. -/
def cacheKey (mcpServer tool : String) (payload : Obj) : String :=
  mcpServer ++ ":" ++ tool ++ ":" ++ objStringify payload

/-! ## Configuration data model (`OrchestrationConfig` and friends) -/

/-- Endpoint descriptor (`MCPServer.endpoint`): only `server_name` is consulted by the call path
(`endpoint.type`, `url`, `command`, `args` feed logging/config only). -/
structure Endpoint where
  server_name : Option String


/-- A registered capability provider (`MCPServer`); `capabilities`, `tools`
and `models` are introspection metadata not consulted by the call path. -/
structure MCPServer where
  endpoint : Endpoint


/-- Settings: the `integration_settings` fields consulted by the engine. -/
structure IntegrationSettings where
  result_caching : Bool
  cache_duration : Int


/-- Condition of a routing rule (`RoutingRule.condition`). -/
structure RuleCondition where
  task_type : Option (List String) := none
  complexity : Option (List String) := none
  context_required : Option Bool := none
  target : Option (List String) := none


/-- Fallback spec (`RoutingRule.fallback`): alternate provider/tool/params, itself without a
further fallback. -/
structure FallbackSpec where
  mcp : String
  tool : String
  params : Obj := []

/-- One step of a `RoutingRule.sequence`. An absent optional boolean flag and
`false` behave identically (both falsy), so flags are plain `Bool`; absent
`params` and `{}` behave identically under spread, so `params` is an `Obj`
defaulting to `[]`. -/
structure SeqStep where
  mcp : String
  tool : String
  params : Obj := []
  pass_result_to_next : Bool := false
  use_previous_result : Bool := false

/-- A routing rule. -/
structure RoutingRule where
  name : String
  condition : RuleCondition
  primary_mcp : Option String := none
  tool : Option String := none
  params : Obj := []
  fallback : Option FallbackSpec := none
  sequence : Option (List SeqStep) := none

/-- One declared workflow step (`WorkflowStep`). -/
structure WorkflowStep where
  name : String
  mcp : String
  tool : String
  params : Obj := []
  condition : Option String := none
  use_context_from : Option (List String) := none
  use_issue_from : Option String := none


/-- A named workflow's executable content (description/triggers are advisory
metadata). -/
structure Workflow where
  steps : List WorkflowStep


/-- The loaded orchestration configuration. -/
structure OrchestrationConfig where
  mcp_servers : List (String × MCPServer)
  routing_rules : List RoutingRule
  workflows : List (String × Workflow)
  integration_settings : IntegrationSettings

/-- Lookup in a string-keyed record (`Record<string, T>` indexing). -/
def recLookup {α : Type} : List (String × α) → String → Option α
  | [], _ => none
  | (k', v) :: rest, k => if k' = k then some v else recLookup rest k

/-- Complexity (`TaskContext.complexity`): the string union `low | medium | high`. -/
inductive Complexity where
  | low | medium | high
deriving DecidableEq

/-- The string a `Complexity` denotes. -/
def Complexity.toStr : Complexity → String
  | .low => "low"
  | .medium => "medium"
  | .high => "high"

/-- An incoming task description (`TaskContext`); `description`, `metadata`
and `correlationId` feed logging only. -/
structure TaskContext where
  task_type : String
  complexity : Option Complexity := none
  context_required : Option Bool := none
  target : Option String := none


/-- The per-call result (`MCPCallResult`). `data` is `undefined` when the
field is absent. -/
structure MCPCallResult where
  success : Bool
  data : JsValue := .undefined
  error : Option String := none
  executionTime : Option Int := none
  mcp_server : String
  tool : String

/-! ## Rule matching (`matchesCondition`, `findMatchingRule`) -/

/-- Predicate `matchesCondition(condition, taskContext)`: each declared condition field
may veto the rule. `condition.complexity` and `condition.target` are checked
only when the task supplies a truthy value for the field (a `Complexity` is
always a non-empty string hence always truthy; a task target that is the
empty string is falsy and skips the check). `condition.context_required`
must equal the task's flag exactly (`!==` against a possibly-absent flag). -/
def matchesCondition (cond : RuleCondition) (t : TaskContext) : Bool :=
  if (match cond.task_type with
      | some l => !(l.contains t.task_type)
      | none => false) then false
  else if (match cond.complexity, t.complexity with
      | some l, some c => !(l.contains c.toStr)
      | _, _ => false) then false
  else if (match cond.context_required with
      | some b => !(some b == t.context_required)
      | none => false) then false
  else if (match cond.target, t.target with
      | some l, some s => s != "" && !(l.contains s)
      | _, _ => false) then false
  else true

/-- Matcher `findMatchingRule`: first rule in declaration order whose condition
holds, else `none`. -/
def findMatchingRule : List RoutingRule → TaskContext → Option RoutingRule
  | [], _ => none
  | r :: rest, t =>
      if matchesCondition r.condition t then some r else findMatchingRule rest t

/-- Evaluator `evaluateCondition(condition, payload)`: closed vocabulary of named
predicates over the payload; unrecognized names default to `true`. The
source returns `payload.x || payload.y`, consumed in boolean position. -/
def evaluateCondition (condition : String) (payload : Obj) : Bool :=
  if condition = "library_needed" then
    truthy (objGet payload "library") || truthy (objGet payload "dependencies")
  else if condition = "context_needed" then
    truthy (objGet payload "codebase") || truthy (objGet payload "repository")
  else if condition = "library_research_needed" then
    truthy (objGet payload "library_research") || truthy (objGet payload "api_docs")
  else true

/-- Optionality check `isOptionalStep`: by membership of the step name in a fixed
allow-list. -/
def isOptionalStep (step : WorkflowStep) : Bool :=
  ["get_context", "get_codebase_context", "get_technical_context"].contains step.name

/-! ## The call executor (`executeSingleCall` / `callMCPTool`) -/

/-- Model of `Map.set` on a string-keyed map: replace in place when the key exists,
else append. -/
def recSet {α : Type} : List (String × α) → String → α → List (String × α)
  | [], k, v => [(k, v)]
  | (k', v') :: rest, k, v =>
      if k' = k then (k, v) :: rest else (k', v') :: recSet rest k v

/-- A cache entry: `{ result, timestamp }`. -/
structure CacheEntry where
  result : JsValue
  timestamp : Int

/-- Mutable executor state: the current `Date.now()` value and the
process-wide result cache. -/
structure ExecState where
  now : Int
  cache : List (String × CacheEntry)

/-- The external capability channel (Warp's `call_mcp_tool`): given the
current time, the resolved MCP name and the JSON-serialized payload, either
a result value or a rejection, plus the call's wall-clock duration. -/
def Channel : Type :=
  Int → String → String → Except String JsValue × Int

/-- ASCII lowercasing of one character (`toLowerCase` on the ASCII names the
configuration uses). -/
def charLower (c : Char) : Char :=
  if 65 ≤ c.toNat ∧ c.toNat ≤ 90 then Char.ofNat (c.toNat + 32) else c

/-- ASCII `toLowerCase` of a string. -/
def strLower (s : String) : String :=
  String.mk (s.data.map charLower)

/-- Name map of `makeWarpMCPCall`: configuration names to Warp MCP names,
defaulting to lowercase. -/
def warpMCPName (n : String) : String :=
  if n = "Perplexity" then "perplexity-ask"
  else if n = "Linear" then "linear"
  else if n = "POE" then "Dart"
  else if n = "Context7" then "Context7"
  else if n = "Vercel" then "vercel"
  else strLower n

/-- Resolution `server.endpoint.server_name || mcpServer`: the configured endpoint name
when present and truthy, else the configuration key itself. -/
def resolveServerName (server : MCPServer) (mcpServer : String) : String :=
  match server.endpoint.server_name with
  | some s => if s = "" then mcpServer else s
  | none => mcpServer

/-- Outcome of `callMCPTool`: the result, the advanced state, and the channel
invocations performed (resolved name, serialized payload). `Except.error`
models the one exception `callMCPTool` can throw — an unknown server name;
a channel rejection is caught inside `callMCPTool` and converted to a
`success := false` result, not rethrown. -/
def callMCPTool (cfg : OrchestrationConfig) (channel : Channel) (st : ExecState)
    (mcpServer tool : String) (payload : Obj) :
    Except String (MCPCallResult × ExecState × List (String × String)) :=
  match recLookup cfg.mcp_servers mcpServer with
  | none => .error ("MCP server '" ++ mcpServer ++ "' not found in configuration")
  | some server =>
      let actual := warpMCPName (resolveServerName server mcpServer)
      let json := objStringify payload
      let (outcome, dur) := channel st.now actual json
      let st' : ExecState := { st with now := st.now + dur }
      match outcome with
      | .ok data =>
          .ok ({ success := true, data := data, mcp_server := mcpServer, tool := tool },
               st', [(actual, json)])
      | .error e =>
          .ok ({ success := false, error := some e, mcp_server := mcpServer, tool := tool },
               st', [(actual, json)])

/-- Result of one run through the call executor. -/
structure CallOut where
  result : MCPCallResult
  state : ExecState
  calls : List (String × String)

/-- The cache consultation at the top of `executeSingleCall`: the cached
value when caching is enabled and a fresh entry exists for the key. -/
def freshCached (cfg : OrchestrationConfig) (st : ExecState) (key : String) :
    Option JsValue :=
  if cfg.integration_settings.result_caching then
    match recLookup st.cache key with
    | some e =>
        if st.now - e.timestamp < cfg.integration_settings.cache_duration * 1000 then
          some e.result
        else none
    | none => none
  else none

/-- The `try` block of `executeSingleCall`: consult the cache; otherwise
perform the call via `callMCPTool`, caching a successful result and
stamping the execution time. A thrown error (unknown server — the only
exception on this path, since channel rejections are converted to data
inside `callMCPTool`) is handed to the catch continuation `onThrow`. -/
def executeSingleCallCore (cfg : OrchestrationConfig) (channel : Channel)
    (st : ExecState) (mcpServer tool : String) (payload : Obj)
    (onThrow : String → CallOut) : CallOut :=
  let startTime := st.now
  let key := cacheKey mcpServer tool payload
  match freshCached cfg st key with
  | some data =>
      { result := { success := true, data := data, executionTime := some 0,
                    mcp_server := mcpServer, tool := tool },
        state := st, calls := [] }
  | none =>
      match callMCPTool cfg channel st mcpServer tool payload with
      | .ok (result, st', calls) =>
          let st'' : ExecState :=
            if result.success && cfg.integration_settings.result_caching then
              { st' with cache := recSet st'.cache key ⟨result.data, st'.now⟩ }
            else st'
          { result := { result with executionTime := some (st'.now - startTime) },
            state := st'', calls := calls }
      | .error e => onThrow e

/-- The failure result built by the catch block of `executeSingleCall` when
no (further) fallback is available. No channel call happened between entry
and the throw, so `Date.now() - startTime` is 0 in this model. -/
def thrownResult (st : ExecState) (mcpServer tool : String) (e : String) : CallOut :=
  { result := { success := false, error := some e, executionTime := some 0,
                mcp_server := mcpServer, tool := tool },
    state := st, calls := [] }

/-- Executor `executeSingleCall`: the `try` block with its catch continuation. On a
thrown error, when a fallback is declared, the call is retried once with
the fallback's provider and tool and the fallback's params merged over the
payload — the retry passes no further fallback, so its own catch builds the
final failure (the source performs this one-deep recursion through the same
function with `fallback` omitted; it is unrolled here because the recursion
depth is at most one). -/
def executeSingleCall (cfg : OrchestrationConfig) (channel : Channel)
    (st : ExecState) (mcpServer tool : String) (payload : Obj)
    (fallback : Option FallbackSpec) : CallOut :=
  executeSingleCallCore cfg channel st mcpServer tool payload (fun e =>
    match fallback with
    | some fb =>
        executeSingleCallCore cfg channel st fb.mcp fb.tool
          (objMerge payload fb.params)
          (fun e2 => thrownResult st fb.mcp fb.tool e2)
    | none => thrownResult st mcpServer tool e)

/-! ## The sequence executor (`executeSequence`) -/

/-- One executor-level invocation of a sequence step: the provider, tool and
the exact payload handed to `executeSingleCall`. -/
structure SeqCall where
  mcp : String
  tool : String
  payload : Obj

/-- Result of a sequence run, with the per-step invocation trace. -/
structure SeqOut where
  result : MCPCallResult
  state : ExecState
  trace : List SeqCall

/-- The `use_previous_result` injection at the top of the sequence loop
body: with the flag set and a non-empty results list, assign the previous
step's data into the current payload under `previousResult`. -/
def seqInject (step : SeqStep) (currentPayload : Obj) (results : List JsValue) : Obj :=
  match step.use_previous_result, results.getLast? with
  | true, some v => objSet currentPayload "previousResult" v
  | _, _ => currentPayload

/-- The loop body of `executeSequence`: `currentPayload` and the accumulated
`results` evolve step by step; `use_previous_result` (with a non-empty
results list) assigns the previous step's data into `currentPayload` under
`previousResult`; each call merges `step.params` over `currentPayload`; the
first failing result is returned as-is; `pass_result_to_next` spreads the
step's data into `currentPayload`. -/
def seqLoop (cfg : OrchestrationConfig) (channel : Channel) :
    List SeqStep → Obj → List JsValue → ExecState → SeqOut
  | [], _, results, st =>
      { result := { success := true, data := .arr results,
                    mcp_server := "sequence", tool := "multi-step" },
        state := st, trace := [] }
  | step :: rest, currentPayload, results, st =>
      let cp := seqInject step currentPayload results
      let callPayload := objMerge cp step.params
      let out := executeSingleCall cfg channel st step.mcp step.tool callPayload none
      if out.result.success then
        let cp' := if step.pass_result_to_next then jsSpread cp out.result.data else cp
        let t := seqLoop cfg channel rest cp' (results ++ [out.result.data]) out.state
        { t with trace := ⟨step.mcp, step.tool, callPayload⟩ :: t.trace }
      else
        { result := out.result, state := out.state,
          trace := [⟨step.mcp, step.tool, callPayload⟩] }

/-- Runner `executeSequence`: run the steps starting from a copy of the payload with
no accumulated results. -/
def executeSequence (cfg : OrchestrationConfig) (channel : Channel)
    (sequence : List SeqStep) (payload : Obj) (st : ExecState) : SeqOut :=
  seqLoop cfg channel sequence payload [] st

/-! ## The workflow engine (`executeWorkflow`) -/

/-- Per-run workflow state: recorded step outputs and recorded issue ids,
both keyed by step name (`Record<string, any>`). -/
structure WorkflowState where
  results : Obj := []
  issues : Obj := []

/-- Skip check `step.condition && !evaluateCondition(step.condition, payload)`: whether
the step is skipped. The check always uses the original incoming payload. -/
def stepSkips (step : WorkflowStep) (payload : Obj) : Bool :=
  match step.condition with
  | some c => !evaluateCondition c payload
  | none => false

/-- Payload assembly for one workflow step: merge the step's params over the
original payload, then inject recorded context outputs under `context` (for
prior step names with a truthy recorded output), then inject a recorded
issue id under `id` (when `use_issue_from` is truthy and an id is
recorded). -/
def buildStepPayload (payload : Obj) (step : WorkflowStep) (ws : WorkflowState) : Obj :=
  let p0 := objMerge payload step.params
  let p1 :=
    match step.use_context_from with
    | none => p0
    | some names =>
        names.foldl (fun acc nm =>
          if truthy (objGet ws.results nm) then
            match (if truthy (objGet acc "context") then objGet acc "context"
                   else .obj []) with
            | .obj fs => objSet acc "context" (.obj (objSet fs nm (objGet ws.results nm)))
            | _ => acc
          else acc) p0
  match step.use_issue_from with
  | some s =>
      if s != "" && truthy (objGet ws.issues s) then
        objSet p1 "id" (objGet ws.issues s)
      else p1
  | none => p1

/-- Optional-chaining read `v?.k`. -/
def dataGet (v : JsValue) (k : String) : JsValue :=
  match v with
  | .obj fs => objGet fs k
  | _ => .undefined

/-- The single call a workflow step performs (`executeSingleCall` with the
assembled payload and no fallback). -/
def runStep (cfg : OrchestrationConfig) (channel : Channel) (payload : Obj)
    (step : WorkflowStep) (st : ExecState) (ws : WorkflowState) : CallOut :=
  executeSingleCall cfg channel st step.mcp step.tool
    (buildStepPayload payload step ws) none

/-- Recording of a step's outcome into the run state: the step's data under
its name, and — for a successful `create_issue` with a truthy `data.id` —
the id into the issue map. -/
def updateWfState (step : WorkflowStep) (r : MCPCallResult) (ws : WorkflowState) :
    WorkflowState :=
  { results := objSet ws.results step.name r.data,
    issues :=
      if r.success && truthy (dataGet r.data "id") && step.tool = "create_issue" then
        objSet ws.issues step.name (dataGet r.data "id")
      else ws.issues }

/-- Result of the workflow step loop. -/
structure WfStepsOut where
  results : List MCPCallResult
  state : ExecState
  calls : List (String × String)

/-- The step loop of `executeWorkflow`: skip steps whose condition evaluates
false; execute each remaining step, record its result, and break — with the
failing result recorded — when a non-optional step fails. -/
def execWorkflowSteps (cfg : OrchestrationConfig) (channel : Channel)
    (payload : Obj) : List WorkflowStep → ExecState → WorkflowState → WfStepsOut
  | [], st, _ => { results := [], state := st, calls := [] }
  | step :: rest, st, ws =>
      if stepSkips step payload then
        execWorkflowSteps cfg channel payload rest st ws
      else
        let out := runStep cfg channel payload step st ws
        if !out.result.success && !isOptionalStep step then
          { results := [out.result], state := out.state, calls := out.calls }
        else
          let t := execWorkflowSteps cfg channel payload rest out.state
                     (updateWfState step out.result ws)
          { results := out.result :: t.results, state := t.state,
            calls := out.calls ++ t.calls }

/-- Result of one workflow run. -/
structure WfOut where
  success : Bool
  results : List MCPCallResult
  state : ExecState
  calls : List (String × String)

/-- Engine `executeWorkflow`: unknown workflow names yield a single explicit failure
result; otherwise the steps run and overall success is the conjunction of
every recorded step result's success flag. -/
def executeWorkflow (cfg : OrchestrationConfig) (channel : Channel)
    (workflowName : String) (payload : Obj) (st : ExecState) : WfOut :=
  match recLookup cfg.workflows workflowName with
  | none =>
      { success := false,
        results := [{ success := false,
                      error := some ("Workflow '" ++ workflowName ++ "' not found"),
                      mcp_server := "", tool := "" }],
        state := st, calls := [] }
  | some workflow =>
      let t := execWorkflowSteps cfg channel payload workflow.steps st {}
      { success := t.results.all (fun r => r.success),
        results := t.results, state := t.state, calls := t.calls }

/-! ## Task routing (`routeTask`) -/

/-- The explicit no-route failure result. -/
def noRouteResult (t : TaskContext) : MCPCallResult :=
  { success := false,
    error := some ("No routing rule found for task type: " ++ t.task_type),
    mcp_server := "", tool := "" }

/-- Router `routeTask`: find the first matching rule; a sequence rule runs the
sequence executor, a single-call rule (truthy `primary_mcp` and `tool`)
runs the call executor with the rule's params merged over the payload and
the rule's fallback; no match yields the explicit no-route failure; a rule
with neither action throws `Invalid routing rule configuration`, which the
surrounding catch converts to a failure result. -/
def routeTask (cfg : OrchestrationConfig) (channel : Channel)
    (taskContext : TaskContext) (payload : Obj) (st : ExecState) :
    MCPCallResult × ExecState :=
  match findMatchingRule cfg.routing_rules taskContext with
  | none => (noRouteResult taskContext, st)
  | some rule =>
      match rule.sequence with
      | some seq =>
          let out := executeSequence cfg channel seq payload st
          (out.result, out.state)
      | none =>
          match rule.primary_mcp, rule.tool with
          | some m, some tl =>
              if m != "" && tl != "" then
                let out := executeSingleCall cfg channel st m tl
                  (objMerge payload rule.params) rule.fallback
                (out.result, out.state)
              else
                ({ success := false, error := some "Invalid routing rule configuration",
                   mcp_server := "", tool := "" }, st)
          | _, _ =>
              ({ success := false, error := some "Invalid routing rule configuration",
                 mcp_server := "", tool := "" }, st)

/-! ## Helper lemmas -/

/-- A successful return of `callMCPTool` performed exactly one channel
invocation. -/
theorem callMCPTool_ok_calls {cfg : OrchestrationConfig} {channel : Channel}
    {st : ExecState} {s t : String} {p : Obj} {r : MCPCallResult}
    {st' : ExecState} {cs : List (String × String)}
    (h : callMCPTool cfg channel st s t p = .ok (r, st', cs)) :
    cs.length = 1 := by
  unfold callMCPTool at h
  cases hr : recLookup cfg.mcp_servers s with
  | none => simp [hr] at h
  | some server =>
      simp only [hr] at h
      rcases hc : channel st.now (warpMCPName (resolveServerName server s)) (objStringify p)
        with ⟨outcome, dur⟩
      simp only [hc] at h
      cases outcome <;> simp at h <;> (obtain ⟨h1, h2, h3⟩ := h; subst h3; rfl)

/-- A run of the call executor with no fallback makes at most one channel
invocation. -/
theorem executeSingleCall_none_calls_le_one (cfg : OrchestrationConfig)
    (channel : Channel) (st : ExecState) (s t : String) (p : Obj) :
    (executeSingleCall cfg channel st s t p none).calls.length ≤ 1 := by
  unfold executeSingleCall executeSingleCallCore
  cases hfc : freshCached cfg st (cacheKey s t p) with
  | some d => simp [hfc]
  | none =>
      simp only [hfc]
      cases hcall : callMCPTool cfg channel st s t p with
      | error e => simp [hcall, thrownResult]
      | ok out =>
          obtain ⟨r, st', cs⟩ := out
          have hl := callMCPTool_ok_calls hcall
          simp [hcall, hl]

/-- Lemma: `recSet` followed by `recLookup` at the same key finds the new value. -/
theorem recLookup_recSet_self {α : Type} (m : List (String × α)) (k : String)
    (v : α) : recLookup (recSet m k v) k = some v := by
  induction m with
  | nil => simp [recSet, recLookup]
  | cons a rest ih =>
      by_cases h : a.1 = k
      · simp [recSet, recLookup, h]
      · rcases a with ⟨k', v'⟩
        simp only [recSet, recLookup] at *
        rw [if_neg h, recLookup, if_neg h]
        exact ih

/-- Lemma: `findMatchingRule` only returns a rule whose condition holds, and only
the first such rule in declaration order. -/
theorem findMatchingRule_first {rules : List RoutingRule} {t : TaskContext}
    {r : RoutingRule} (h : findMatchingRule rules t = some r) :
    matchesCondition r.condition t = true ∧
      ∃ pre post, rules = pre ++ r :: post ∧
        ∀ r' ∈ pre, matchesCondition r'.condition t = false := by
  induction rules with
  | nil => simp [findMatchingRule] at h
  | cons a rest ih =>
      by_cases hm : matchesCondition a.condition t = true
      · rw [findMatchingRule, if_pos hm] at h
        obtain rfl : a = r := by injection h
        exact ⟨hm, [], rest, rfl, by simp⟩
      · rw [findMatchingRule, if_neg hm] at h
        obtain ⟨h1, pre, post, heq, hall⟩ := ih h
        refine ⟨h1, a :: pre, post, by rw [heq]; rfl, ?_⟩
        intro r' hr'
        rcases List.mem_cons.mp hr' with rfl | hmem
        · exact Bool.eq_false_iff.mpr hm
        · exact hall r' hmem

/-- Lemma: `findMatchingRule` returns `none` when no rule's condition holds. -/
theorem findMatchingRule_none {rules : List RoutingRule} {t : TaskContext}
    (h : ∀ r ∈ rules, matchesCondition r.condition t = false) :
    findMatchingRule rules t = none := by
  induction rules with
  | nil => rfl
  | cons a rest ih =>
      rw [findMatchingRule, if_neg (by simp [h a (by simp)])]
      exact ih (fun r hr => h r (List.mem_cons_of_mem a hr))

/-- Lemma: `findMatchingRule` does return the head of the matching suffix:
when every rule before `r` fails the condition check and `r`'s condition
holds, the matcher returns `r` itself. -/
theorem findMatchingRule_of_first {t : TaskContext} :
    ∀ (pre : List RoutingRule) (r : RoutingRule) (post : List RoutingRule),
      (∀ r' ∈ pre, matchesCondition r'.condition t = false) →
      matchesCondition r.condition t = true →
      findMatchingRule (pre ++ r :: post) t = some r := by
  intro pre
  induction pre with
  | nil =>
      intro r post hpre hr
      simp [findMatchingRule, hr]
  | cons a rest ih =>
      intro r post hpre hr
      have ha : matchesCondition a.condition t = false := hpre a (by simp)
      rw [List.cons_append, findMatchingRule, if_neg (by simp [ha])]
      exact ih r post (fun r' hr' => hpre r' (List.mem_cons_of_mem a hr')) hr

/-! ## Claim C3 — rule matcher: first match in declaration order; explicit
no-route failure -/

/-- C3: For every rule list and task context, `findMatchingRule` returns
exactly the first rule in declaration order whose condition holds — both
directions: whenever the rule list splits as `pre ++ r :: post` with every
rule of `pre` failing and `r` matching, the matcher returns `r` (so a
matching rule is always found, regardless of later rules also matching);
and conversely whatever it returns is a matching rule preceded only by
non-matching ones. When no rule's condition holds it returns `none` and
`routeTask` returns the explicit no-route failure result (a value with
`success = false`, not an exception — `routeTask` is a total function into
results). -/
theorem c3_first_match_and_no_route (cfg : OrchestrationConfig)
    (channel : Channel) (t : TaskContext) (payload : Obj) (st : ExecState) :
    (∀ (pre : List RoutingRule) (r : RoutingRule) (post : List RoutingRule),
        cfg.routing_rules = pre ++ r :: post →
        (∀ r' ∈ pre, matchesCondition r'.condition t = false) →
        matchesCondition r.condition t = true →
        findMatchingRule cfg.routing_rules t = some r) ∧
    (∀ r, findMatchingRule cfg.routing_rules t = some r →
        matchesCondition r.condition t = true ∧
          ∃ pre post, cfg.routing_rules = pre ++ r :: post ∧
            ∀ r' ∈ pre, matchesCondition r'.condition t = false) ∧
    ((∀ r ∈ cfg.routing_rules, matchesCondition r.condition t = false) →
        findMatchingRule cfg.routing_rules t = none ∧
          routeTask cfg channel t payload st = (noRouteResult t, st) ∧
          (noRouteResult t).success = false) := by
  refine ⟨?_, ?_, ?_⟩
  · intro pre r post heq hpre hr
    rw [heq]
    exact findMatchingRule_of_first pre r post hpre hr
  · intro r h
    exact findMatchingRule_first h
  · intro h
    have hn := findMatchingRule_none h
    refine ⟨hn, ?_, rfl⟩
    rw [routeTask, hn]

/-- First rule of the C3 precedence scenario: matches research tasks only. -/
def c3RuleA : RoutingRule :=
  { name := "research-rule", condition := { task_type := some ["research"] } }

/-- Second rule of the C3 precedence scenario: matches deploy tasks. -/
def c3RuleB : RoutingRule :=
  { name := "deploy-rule", condition := { task_type := some ["deploy", "code_generation"] } }

/-- Third rule of the C3 precedence scenario: an unset condition, so it
matches every task — but it is declared after `c3RuleB`. -/
def c3RuleC : RoutingRule := { name := "catch-all", condition := {} }

/-- Rules used to witness C3's no-route branch. -/
def c3Rules : List RoutingRule := [c3RuleA]

/-- Configuration used to witness C3's no-route branch. -/
def c3Cfg : OrchestrationConfig :=
  { mcp_servers := [], routing_rules := c3Rules, workflows := [],
    integration_settings := { result_caching := false, cache_duration := 60 } }

/-- Configuration used to witness C3's precedence branch: two rules match
the task, the earlier one must fire. -/
def c3CfgMulti : OrchestrationConfig :=
  { mcp_servers := [], routing_rules := [c3RuleA, c3RuleB, c3RuleC], workflows := [],
    integration_settings := { result_caching := false, cache_duration := 60 } }

/-- A deploy task: matched by `c3RuleB` and `c3RuleC` but not `c3RuleA`. -/
def c3Ctx : TaskContext := { task_type := "deploy" }

/-- A channel that is never consulted in the C3 witness. -/
def idleChannel : Channel := fun _ _ _ => (.error "unused", 0)

/-- Initial executor state used by the concrete scenarios. -/
def st0 : ExecState := { now := 0, cache := [] }

/-- Witness for C3, exercising both branches: on the three-rule set where
the second and third rules both match the deploy task, the matcher returns
the second (the first matching one, not the later catch-all); and on a
rule set matched by no rule, the matcher returns `none` and `routeTask`
returns the explicit no-route failure. -/
theorem c3_witness :
    findMatchingRule c3CfgMulti.routing_rules c3Ctx = some c3RuleB ∧
      matchesCondition c3RuleC.condition c3Ctx = true ∧
      findMatchingRule c3Cfg.routing_rules c3Ctx = none ∧
      routeTask c3Cfg idleChannel c3Ctx [] st0 = (noRouteResult c3Ctx, st0) ∧
      (noRouteResult c3Ctx).success = false :=
  ⟨(c3_first_match_and_no_route c3CfgMulti idleChannel c3Ctx [] st0).1
     [c3RuleA] c3RuleB [c3RuleC] rfl (by decide) (by decide),
   by decide,
   (c3_first_match_and_no_route c3Cfg idleChannel c3Ctx [] st0).2.2 (by decide)⟩

/-! ## Claim C7 — characterization of `matchesCondition` -/

/-- C7: A rule condition holds against a task context iff: a declared
`task_type` list contains the task's type; a declared `complexity` list
contains the task's complexity whenever the task supplies one (an absent
complexity never fails the check); a declared `context_required` equals the
task's flag exactly (an absent task flag fails the check); and a declared
`target` list contains the task's target whenever the task supplies one
(the task's target being a plain string, "supplies one" is JS-truthiness:
present and non-empty). -/
theorem c7_matches_condition_iff (cond : RuleCondition) (t : TaskContext) :
    matchesCondition cond t = true ↔
      ((∀ l, cond.task_type = some l → l.contains t.task_type = true) ∧
       (∀ l c, cond.complexity = some l → t.complexity = some c →
          l.contains c.toStr = true) ∧
       (∀ b, cond.context_required = some b → t.context_required = some b) ∧
       (∀ l s, cond.target = some l → t.target = some s → s ≠ "" →
          l.contains s = true)) := by
  rcases cond with ⟨tt, cx, cr, tg⟩
  rcases t with ⟨ty, tc, tcr, ttg⟩
  simp only [matchesCondition]
  cases tt <;> cases cx <;> cases cr <;> cases tg <;> cases tc <;> cases ttg <;>
    simp_all [or_iff_not_imp_left] <;>
    aesop

/-! ## Claim C9 — cache keys do not collide across payloads -/

/-- Appending to a fixed string prefix is injective. -/
theorem string_append_cancel {a x y : String} (h : a ++ x = a ++ y) : x = y := by
  have hd := congrArg String.data h
  simp [String.data_append] at hd
  cases x
  cases y
  simp_all

/-- C9 (amended): For every provider, tool, and pair of payloads whose
JSON serializations differ, the computed cache keys differ. (Payloads that
differ only in fields whose value is `undefined` serialize identically —
`JSON.stringify` omits such fields — and therefore share a key, so the
claim holds at the granularity of serialized payloads, not raw payload
objects; see the counterexample.) -/
theorem c9_amended_distinct_serializations_distinct_keys
    (mcpServer tool : String) (p1 p2 : Obj)
    (h : objStringify p1 ≠ objStringify p2) :
    cacheKey mcpServer tool p1 ≠ cacheKey mcpServer tool p2 := by
  intro hk
  apply h
  have : mcpServer ++ ":" ++ tool ++ ":" ++ objStringify p1 =
      mcpServer ++ ":" ++ tool ++ ":" ++ objStringify p2 := hk
  have h2 : (mcpServer ++ ":" ++ tool ++ ":") ++ objStringify p1 =
      (mcpServer ++ ":" ++ tool ++ ":") ++ objStringify p2 := by
    simpa [String.append_assoc] using this
  exact string_append_cancel h2

/-- Witness for the amended C9 at concrete inputs. -/
theorem c9_amended_witness :
    objStringify [("a", JsValue.num 1)] ≠ objStringify [("a", JsValue.num 2)] ∧
      cacheKey "P" "T" [("a", JsValue.num 1)] ≠ cacheKey "P" "T" [("a", JsValue.num 2)] :=
  ⟨by decide,
   c9_amended_distinct_serializations_distinct_keys "P" "T"
     [("a", JsValue.num 1)] [("a", JsValue.num 2)] (by decide)⟩

/-- C9 counterexample: Two distinct payloads — one carrying an extra
field whose value is `undefined` — produce the same cache key, because
`JSON.stringify` omits `undefined`-valued fields. -/
theorem c9_counterexample :
    cacheKey "P" "T" [("a", JsValue.num 1), ("b", JsValue.undefined)] =
        cacheKey "P" "T" [("a", JsValue.num 1)] ∧
      ([("a", JsValue.num 1), ("b", JsValue.undefined)] : Obj) ≠
        [("a", JsValue.num 1)] := by
  refine ⟨rfl, ?_⟩
  intro h
  have := congrArg List.length h
  simp at this

/-! ## Claim C1 — fallback on channel rejection -/

/-- Configuration for the C1 scenario: both the primary provider `P1` and
the fallback provider `P2` are registered, caching is off. -/
def c1Cfg : OrchestrationConfig :=
  { mcp_servers := [("P1", { endpoint := { server_name := some "p1x" } }),
                    ("P2", { endpoint := { server_name := some "p2x" } })],
    routing_rules := [], workflows := [],
    integration_settings := { result_caching := false, cache_duration := 60 } }

/-- A channel that rejects calls to the primary provider's endpoint and
would answer the fallback provider's endpoint. -/
def c1Channel : Channel := fun _ name _ =>
  if name = "p1x" then (.error "boom", 5) else (.ok (.str "alt-ok"), 7)

/-- The declared fallback: provider `P2`, tool `ask_alt`. -/
def c1Fallback : FallbackSpec := { mcp := "P2", tool := "ask_alt" }

/-- C1 (code bug demonstration): With the primary provider registered, a
rejecting channel, and a declared fallback, `executeSingleCall` returns the
primary call's failure and never invokes the fallback: the channel
invocation list contains exactly the primary endpoint (`p1x`), never the
fallback endpoint (`p2x`). The channel rejection is converted to a
`success:false` result inside `callMCPTool` and is not rethrown, so the
catch block of `executeSingleCall` — the only place the fallback is
consulted — is unreachable for channel failures. -/
theorem c1_channel_rejection_skips_fallback :
    (executeSingleCall c1Cfg c1Channel st0 "P1" "ask" [] (some c1Fallback)).result.success
        = false ∧
      (executeSingleCall c1Cfg c1Channel st0 "P1" "ask" [] (some c1Fallback)).result.error
        = some "boom" ∧
      (executeSingleCall c1Cfg c1Channel st0 "P1" "ask" [] (some c1Fallback)).result.mcp_server
        = "P1" ∧
      (executeSingleCall c1Cfg c1Channel st0 "P1" "ask" [] (some c1Fallback)).calls
        = [("p1x", "\x7b\x7d")] :=
  ⟨rfl, rfl, rfl, rfl⟩

/-! ## Claim C8 — fallback is exactly one level deep -/

/-- C8: When the call executor's catch fires (`callMCPTool` threw, i.e.
the provider is not registered) and the cache did not answer, a declared
fallback is performed exactly as a fallback-free run on the fallback's
provider and tool with its params merged over the payload — no further
fallback is passed along, and that run's result, success or failure, is the
final result of the invocation; moreover a fallback-free run performs at
most one channel invocation, so it never retries anything. -/
theorem c8_fallback_one_level :
    (∀ (cfg : OrchestrationConfig) (channel : Channel) (st : ExecState)
        (server tool : String) (payload : Obj) (fb : FallbackSpec),
        recLookup cfg.mcp_servers server = none →
        freshCached cfg st (cacheKey server tool payload) = none →
        executeSingleCall cfg channel st server tool payload (some fb) =
          executeSingleCall cfg channel st fb.mcp fb.tool
            (objMerge payload fb.params) none) ∧
    (∀ (cfg : OrchestrationConfig) (channel : Channel) (st : ExecState)
        (server tool : String) (payload : Obj),
        (executeSingleCall cfg channel st server tool payload none).calls.length ≤ 1) := by
  constructor
  · intro cfg channel st server tool payload fb hsrv hfc
    unfold executeSingleCall executeSingleCallCore
    simp only [hfc]
    unfold callMCPTool
    simp only [hsrv]
  · exact executeSingleCall_none_calls_le_one

/-- Witness for C8: a configuration with no registered providers, where the
primary call throws and the declared fallback run is the final result. -/
theorem c8_witness :
    executeSingleCall c3Cfg idleChannel st0 "P1" "ask" [] (some c1Fallback) =
        executeSingleCall c3Cfg idleChannel st0 "P2" "ask_alt" [] none ∧
      (executeSingleCall c3Cfg idleChannel st0 "P2" "ask_alt" [] none).calls.length ≤ 1 :=
  ⟨c8_fallback_one_level.1 c3Cfg idleChannel st0 "P1" "ask" [] c1Fallback rfl rfl,
   c8_fallback_one_level.2 c3Cfg idleChannel st0 "P2" "ask_alt" []⟩

/-! ## Claim C4 — cache hits and the at-most-once property -/

/-- C4 (amended): With caching enabled: (1) whenever the cache holds an
entry for `(provider, tool, serialized payload)` whose age is within the
configured TTL, the call executor returns the cached value as a success
with execution time 0 and performs no channel invocation; (2) consequently
two identical calls within the TTL window invoke the channel at most once
*provided the first call's result is successful* — failed results are never
cached, so a failing first call does not prevent a second channel
invocation (see the counterexample). -/
theorem c4_amended_cache_hit_at_most_once :
    (∀ (cfg : OrchestrationConfig) (channel : Channel) (st : ExecState)
        (s t : String) (p : Obj) (fb : Option FallbackSpec) (e : CacheEntry),
        cfg.integration_settings.result_caching = true →
        recLookup st.cache (cacheKey s t p) = some e →
        st.now - e.timestamp < cfg.integration_settings.cache_duration * 1000 →
        executeSingleCall cfg channel st s t p fb =
          { result := { success := true, data := e.result, executionTime := some 0,
                        mcp_server := s, tool := t },
            state := st, calls := [] }) ∧
    (∀ (cfg : OrchestrationConfig) (channel : Channel) (st : ExecState)
        (s t : String) (p : Obj) (t2 : Int),
        cfg.integration_settings.result_caching = true →
        (executeSingleCall cfg channel st s t p none).result.success = true →
        t2 - (executeSingleCall cfg channel st s t p none).state.now <
          cfg.integration_settings.cache_duration * 1000 →
        (executeSingleCall cfg channel st s t p none).calls.length +
          (executeSingleCall cfg channel
              { now := t2, cache := (executeSingleCall cfg channel st s t p none).state.cache }
              s t p none).calls.length ≤ 1) := by
  constructor
  · intro cfg channel st s t p fb e hcache hlook hfresh
    have hfc : freshCached cfg st (cacheKey s t p) = some e.result := by
      unfold freshCached
      rw [hcache, if_pos rfl, hlook]
      simp [hfresh]
    unfold executeSingleCall executeSingleCallCore
    simp [hfc]
  · intro cfg channel st s t p t2 hcache hsucc hfresh
    cases hfc : freshCached cfg st (cacheKey s t p) with
    | some d =>
        have h1 : executeSingleCall cfg channel st s t p none =
            { result := { success := true, data := d, executionTime := some 0,
                          mcp_server := s, tool := t },
              state := st, calls := [] } := by
          unfold executeSingleCall executeSingleCallCore
          simp [hfc]
        rw [h1]
        simpa using executeSingleCall_none_calls_le_one cfg channel
          { now := t2, cache := st.cache } s t p
    | none =>
        cases hcall : callMCPTool cfg channel st s t p with
        | error e =>
            have h1 : executeSingleCall cfg channel st s t p none = thrownResult st s t e := by
              unfold executeSingleCall executeSingleCallCore
              simp [hfc, hcall]
            rw [h1] at hsucc
            simp [thrownResult] at hsucc
        | ok out =>
            obtain ⟨r, st', cs⟩ := out
            have hrs : r.success = true := by
              unfold executeSingleCall executeSingleCallCore at hsucc
              simp only [hfc, hcall] at hsucc
              simpa using hsucc
            have h1 : executeSingleCall cfg channel st s t p none =
                { result := { r with executionTime := some (st'.now - st.now) },
                  state := { st' with
                    cache := recSet st'.cache (cacheKey s t p) ⟨r.data, st'.now⟩ },
                  calls := cs } := by
              unfold executeSingleCall executeSingleCallCore
              simp [hfc, hcall, hrs, hcache]
            rw [h1] at hfresh ⊢
            simp only [] at hfresh ⊢
            have hl := callMCPTool_ok_calls hcall
            have hfc2 : freshCached cfg
                { now := t2, cache := recSet st'.cache (cacheKey s t p) ⟨r.data, st'.now⟩ }
                (cacheKey s t p) = some r.data := by
              unfold freshCached
              rw [hcache, if_pos rfl, recLookup_recSet_self]
              exact if_pos (by simpa using hfresh)
            have h2 : executeSingleCall cfg channel
                { now := t2, cache := recSet st'.cache (cacheKey s t p) ⟨r.data, st'.now⟩ }
                s t p none =
                { result := { success := true, data := r.data, executionTime := some 0,
                              mcp_server := s, tool := t },
                  state := { now := t2,
                             cache := recSet st'.cache (cacheKey s t p) ⟨r.data, st'.now⟩ },
                  calls := [] } := by
              unfold executeSingleCall executeSingleCallCore
              simp [hfc2]
            rw [h2]
            simp [hl]

/-- Configuration for the C4 scenarios: provider `P1` registered, caching
enabled with a 60-second TTL. -/
def c4Cfg : OrchestrationConfig :=
  { c1Cfg with integration_settings := { result_caching := true, cache_duration := 60 } }

/-- A channel that always rejects (after 5 ms). -/
def c4FailChannel : Channel := fun _ _ _ => (.error "down", 5)

/-- A channel that always answers (after 5 ms). -/
def c4OkChannel : Channel := fun _ _ _ => (.ok (.str "v"), 5)

/-- An executor state holding a fresh cache entry for `(P1, t, {})`. -/
def c4CachedState : ExecState :=
  { now := 1, cache := [(cacheKey "P1" "t" [], { result := .str "c", timestamp := 0 })] }

/-- Witness for the amended C4: a concrete fresh cache entry is returned as
a success with execution time 0 and no channel invocation, and two
identical calls whose first succeeds invoke the channel at most once. -/
theorem c4_amended_witness :
    executeSingleCall c4Cfg c4OkChannel c4CachedState "P1" "t" [] none =
        { result := { success := true, data := .str "c", executionTime := some 0,
                      mcp_server := "P1", tool := "t" },
          state := c4CachedState, calls := [] } ∧
      (executeSingleCall c4Cfg c4OkChannel st0 "P1" "t" [] none).calls.length +
        (executeSingleCall c4Cfg c4OkChannel
            { now := 10, cache := (executeSingleCall c4Cfg c4OkChannel st0 "P1" "t" [] none).state.cache }
            "P1" "t" [] none).calls.length ≤ 1 :=
  ⟨c4_amended_cache_hit_at_most_once.1 c4Cfg c4OkChannel c4CachedState "P1" "t" [] none
     { result := .str "c", timestamp := 0 } rfl rfl (by decide),
   c4_amended_cache_hit_at_most_once.2 c4Cfg c4OkChannel st0 "P1" "t" [] 10
     rfl rfl (by decide)⟩

/-- C4 counterexample: Two identical calls with caching enabled and a
rejecting channel invoke the channel twice — failures are never cached, so
"at most once" does not hold when the first call fails: the second call
starts 5 ms after the first, well inside the 60-second TTL window. -/
theorem c4_counterexample :
    (executeSingleCall c4Cfg c4FailChannel st0 "P1" "t" [] none).calls.length +
        (executeSingleCall c4Cfg c4FailChannel
            (executeSingleCall c4Cfg c4FailChannel st0 "P1" "t" [] none).state
            "P1" "t" [] none).calls.length = 2 ∧
      (executeSingleCall c4Cfg c4FailChannel st0 "P1" "t" [] none).result.success = false ∧
      (executeSingleCall c4Cfg c4FailChannel st0 "P1" "t" [] none).state.now = 5 ∧
      c4Cfg.integration_settings.result_caching = true ∧
      c4Cfg.integration_settings.cache_duration = 60 :=
  ⟨rfl, rfl, rfl, rfl, rfl⟩

/-! ## Workflow fixtures shared by the C2/C5/C6 scenarios -/

/-- A workflow step whose name is on the optional allow-list. -/
def c2StepGc : WorkflowStep := { name := "get_context", mcp := "M1", tool := "t1" }

/-- A mandatory follow-up step. -/
def c2Step2 : WorkflowStep := { name := "step2", mcp := "M2", tool := "t2" }

/-- Configuration with two providers and the two-step workflow `wf`. -/
def c2Cfg : OrchestrationConfig :=
  { mcp_servers := [("M1", { endpoint := { server_name := some "s1" } }),
                    ("M2", { endpoint := { server_name := some "s2" } })],
    routing_rules := [],
    workflows := [("wf", { steps := [c2StepGc, c2Step2] })],
    integration_settings := { result_caching := false, cache_duration := 60 } }

/-- A channel that rejects provider `M1`'s endpoint and answers `M2`'s. -/
def c2Channel : Channel := fun _ name _ =>
  if name = "s1" then (.error "ctx down", 1) else (.ok (.str "done"), 1)

/-! ## Claim C2 — optional step failure does not halt the run -/

/-- C2 (amended): When a designated-optional workflow step fails, every
subsequent step still executes and the failed step's result is recorded in
the results list; however, the run's overall success flag is the
conjunction of *all* recorded step results' success flags — including the
optional step's — so the optional step's failure does make the run's
overall success false (see the counterexample). -/
theorem c2_amended_optional_continues :
    (∀ (cfg : OrchestrationConfig) (channel : Channel) (payload : Obj)
        (step : WorkflowStep) (rest : List WorkflowStep) (st : ExecState)
        (ws : WorkflowState),
        isOptionalStep step = true →
        stepSkips step payload = false →
        execWorkflowSteps cfg channel payload (step :: rest) st ws =
          { results := (runStep cfg channel payload step st ws).result ::
              (execWorkflowSteps cfg channel payload rest
                 (runStep cfg channel payload step st ws).state
                 (updateWfState step (runStep cfg channel payload step st ws).result ws)).results,
            state := (execWorkflowSteps cfg channel payload rest
                 (runStep cfg channel payload step st ws).state
                 (updateWfState step (runStep cfg channel payload step st ws).result ws)).state,
            calls := (runStep cfg channel payload step st ws).calls ++
              (execWorkflowSteps cfg channel payload rest
                 (runStep cfg channel payload step st ws).state
                 (updateWfState step (runStep cfg channel payload step st ws).result ws)).calls }) ∧
    (∀ (cfg : OrchestrationConfig) (channel : Channel) (workflowName : String)
        (payload : Obj) (st : ExecState),
        (executeWorkflow cfg channel workflowName payload st).success =
          (executeWorkflow cfg channel workflowName payload st).results.all
            (fun r => r.success)) := by
  constructor
  · intro cfg channel payload step rest st ws hopt hskip
    simp [execWorkflowSteps, hskip, hopt]
  · intro cfg channel workflowName payload st
    unfold executeWorkflow
    cases hw : recLookup cfg.workflows workflowName <;> simp [hw]

/-- Witness for the amended C2 at the concrete two-step workflow whose
optional first step fails. -/
theorem c2_amended_witness :
    execWorkflowSteps c2Cfg c2Channel [] (c2StepGc :: [c2Step2]) st0 {} =
        { results := (runStep c2Cfg c2Channel [] c2StepGc st0 {}).result ::
            (execWorkflowSteps c2Cfg c2Channel [] [c2Step2]
               (runStep c2Cfg c2Channel [] c2StepGc st0 {}).state
               (updateWfState c2StepGc (runStep c2Cfg c2Channel [] c2StepGc st0 {}).result {})).results,
          state := (execWorkflowSteps c2Cfg c2Channel [] [c2Step2]
               (runStep c2Cfg c2Channel [] c2StepGc st0 {}).state
               (updateWfState c2StepGc (runStep c2Cfg c2Channel [] c2StepGc st0 {}).result {})).state,
          calls := (runStep c2Cfg c2Channel [] c2StepGc st0 {}).calls ++
            (execWorkflowSteps c2Cfg c2Channel [] [c2Step2]
               (runStep c2Cfg c2Channel [] c2StepGc st0 {}).state
               (updateWfState c2StepGc (runStep c2Cfg c2Channel [] c2StepGc st0 {}).result {})).calls } ∧
      (executeWorkflow c2Cfg c2Channel "wf" [] st0).success =
        (executeWorkflow c2Cfg c2Channel "wf" [] st0).results.all (fun r => r.success) :=
  ⟨c2_amended_optional_continues.1 c2Cfg c2Channel [] c2StepGc [c2Step2] st0 {} rfl rfl,
   c2_amended_optional_continues.2 c2Cfg c2Channel "wf" [] st0⟩

/-- C2 counterexample: In the two-step workflow whose designated-optional
first step fails and whose second (and only other) step succeeds, both
steps execute and are recorded, yet the overall success flag is `false` —
it is not determined solely by the non-optional steps. -/
theorem c2_counterexample :
    (executeWorkflow c2Cfg c2Channel "wf" [] st0).success = false ∧
      (executeWorkflow c2Cfg c2Channel "wf" [] st0).results.map (fun r => r.success) =
        [false, true] ∧
      isOptionalStep c2StepGc = true ∧
      (executeWorkflow c2Cfg c2Channel "wf" [] st0).results.length = 2 :=
  ⟨rfl, rfl, rfl, rfl⟩

/-! ## Claim C5 — mandatory step failure is fail-fast -/

/-- C5: When an executed (non-skipped) workflow step fails and is not
designated optional, the loop stops immediately: the results list from
that step on is exactly the failing step's result (later steps never
execute and contribute no channel calls), and any results list ending in
the failing result makes the run's overall success conjunction false. -/
theorem c5_fail_fast (cfg : OrchestrationConfig) (channel : Channel)
    (payload : Obj) (step : WorkflowStep) (rest : List WorkflowStep)
    (st : ExecState) (ws : WorkflowState)
    (hskip : stepSkips step payload = false)
    (hmand : isOptionalStep step = false)
    (hfail : (runStep cfg channel payload step st ws).result.success = false) :
    execWorkflowSteps cfg channel payload (step :: rest) st ws =
        { results := [(runStep cfg channel payload step st ws).result],
          state := (runStep cfg channel payload step st ws).state,
          calls := (runStep cfg channel payload step st ws).calls } ∧
      ∀ pre : List MCPCallResult,
        (pre ++ [(runStep cfg channel payload step st ws).result]).all
          (fun r => r.success) = false := by
  constructor
  · simp [execWorkflowSteps, hskip, hmand, hfail]
  · intro pre
    simp [List.all_append, hfail]

/-- A mandatory step routed at the rejecting endpoint. -/
def c5StepMand : WorkflowStep := { name := "mand", mcp := "M1", tool := "t1" }

/-- Witness for C5: the concrete run stops at the failing mandatory step. -/
theorem c5_witness :
    execWorkflowSteps c2Cfg c2Channel [] (c5StepMand :: [c2Step2]) st0 {} =
        { results := [(runStep c2Cfg c2Channel [] c5StepMand st0 {}).result],
          state := (runStep c2Cfg c2Channel [] c5StepMand st0 {}).state,
          calls := (runStep c2Cfg c2Channel [] c5StepMand st0 {}).calls } ∧
      ∀ pre : List MCPCallResult,
        (pre ++ [(runStep c2Cfg c2Channel [] c5StepMand st0 {}).result]).all
          (fun r => r.success) = false :=
  c5_fail_fast c2Cfg c2Channel [] c5StepMand [c2Step2] st0 {} rfl rfl rfl

/-! ## Claim C6 — conditional steps: skip semantics and default-true -/

/-- C6: A workflow step's condition is evaluated against the original
incoming payload; an unrecognized condition name evaluates to `true`; and
when the condition evaluates to `false` the step is skipped entirely — the
loop's outcome on `step :: rest` equals the outcome on `rest` alone: no
results entry, no channel invocation, no failure, no state change from the
skipped step. -/
theorem c6_condition_skip_semantics :
    (∀ (c : String) (payload : Obj),
        c ≠ "library_needed" → c ≠ "context_needed" → c ≠ "library_research_needed" →
        evaluateCondition c payload = true) ∧
    (∀ (cfg : OrchestrationConfig) (channel : Channel) (payload : Obj)
        (step : WorkflowStep) (rest : List WorkflowStep) (st : ExecState)
        (ws : WorkflowState) (c : String),
        step.condition = some c → evaluateCondition c payload = false →
        execWorkflowSteps cfg channel payload (step :: rest) st ws =
          execWorkflowSteps cfg channel payload rest st ws) := by
  constructor
  · intro c payload h1 h2 h3
    simp [evaluateCondition, h1, h2, h3]
  · intro cfg channel payload step rest st ws c hc heval
    simp [execWorkflowSteps, stepSkips, hc, heval]

/-- A conditional step whose `library_needed` condition fails on the empty
payload. -/
def c6Step : WorkflowStep :=
  { name := "research_library", mcp := "M2", tool := "t",
    condition := some "library_needed" }

/-- Witness for C6: the unrecognized name defaults to true, and the concrete
conditional step is skipped — the loop's outcome is that of the remaining
steps alone. -/
theorem c6_witness :
    evaluateCondition "totally_unknown_condition" [] = true ∧
      execWorkflowSteps c2Cfg c2Channel [] (c6Step :: [c2Step2]) st0 {} =
        execWorkflowSteps c2Cfg c2Channel [] [c2Step2] st0 {} :=
  ⟨c6_condition_skip_semantics.1 "totally_unknown_condition" []
     (by decide) (by decide) (by decide),
   c6_condition_skip_semantics.2 c2Cfg c2Channel [] c6Step [c2Step2] st0 {}
     "library_needed" rfl rfl⟩

/-! ## Claim C10 — `previousResult` persists through the sequence -/

/-- Assignment puts the value where lookup finds it. -/
theorem objLookup_objSet_self (o : Obj) (k : String) (v : JsValue) :
    objLookup (objSet o k v) k = some v := by
  induction o with
  | nil => simp [objSet, objLookup]
  | cons a rest ih =>
      rcases a with ⟨k', v'⟩
      by_cases h : k' = k
      · simp [objSet, objLookup, h]
      · simp [objSet, objLookup, h, ih]

/-- Assignment leaves other keys' lookups unchanged. -/
theorem objLookup_objSet_ne (o : Obj) {k k' : String} (hne : k ≠ k')
    (v : JsValue) : objLookup (objSet o k v) k' = objLookup o k' := by
  induction o with
  | nil => simp [objSet, objLookup, fun h => hne h]
  | cons a rest ih =>
      rcases a with ⟨ka, va⟩
      by_cases h : ka = k
      · subst h
        simp [objSet, objLookup, fun h => hne h]
      · simp [objSet, objLookup, h, ih]

/-- Assignment never removes a present key. -/
theorem objLookup_objSet_pres {o : Obj} {k' : String}
    (h : objLookup o k' ≠ none) (k : String) (v : JsValue) :
    objLookup (objSet o k v) k' ≠ none := by
  by_cases hk : k = k'
  · subst hk
    rw [objLookup_objSet_self]
    simp
  · rwa [objLookup_objSet_ne o hk v]

/-- Spreading fields over an object never removes a present key. -/
theorem objLookup_objMerge_pres (b : Obj) :
    ∀ (a : Obj) (k : String), objLookup a k ≠ none →
      objLookup (objMerge a b) k ≠ none := by
  induction b with
  | nil => intro a k h; simpa [objMerge] using h
  | cons x bs ih =>
      intro a k h
      have hstep : objMerge a (x :: bs) = objMerge (objSet a x.1 x.2) bs := rfl
      rw [hstep]
      exact ih _ k (objLookup_objSet_pres h x.1 x.2)

/-- Spread `\x7b ...base, ...v \x7d` never removes a present key, whatever `v` is. -/
theorem objLookup_jsSpread_pres {a : Obj} {k : String}
    (h : objLookup a k ≠ none) (v : JsValue) :
    objLookup (jsSpread a v) k ≠ none := by
  cases v <;> simp only [jsSpread] <;>
    first
      | exact h
      | exact objLookup_objMerge_pres _ a k h

/-- The `use_previous_result` injection never removes a present key. -/
theorem objLookup_seqInject_pres {cp : Obj} {k : String}
    (h : objLookup cp k ≠ none) (step : SeqStep) (results : List JsValue) :
    objLookup (seqInject step cp results) k ≠ none := by
  unfold seqInject
  cases step.use_previous_result <;> cases results.getLast? <;>
    first
      | exact h
      | exact objLookup_objSet_pres h _ _

/-- Once a key is present in the sequence loop's current payload, it is
present in the payload of every subsequent call of the loop. -/
theorem seqLoop_key_invariant (cfg : OrchestrationConfig) (channel : Channel)
    (k : String) :
    ∀ (steps : List SeqStep) (cp : Obj) (results : List JsValue) (st : ExecState),
      objLookup cp k ≠ none →
      ∀ e ∈ (seqLoop cfg channel steps cp results st).trace,
        objLookup e.payload k ≠ none := by
  intro steps
  induction steps with
  | nil =>
      intro cp results st h e he
      simp [seqLoop] at he
  | cons step rest ih =>
      intro cp results st h e he
      simp only [seqLoop] at he
      have hcp1 : objLookup (seqInject step cp results) k ≠ none :=
        objLookup_seqInject_pres h step results
      have hcall : objLookup (objMerge (seqInject step cp results) step.params) k ≠ none :=
        objLookup_objMerge_pres _ _ _ hcp1
      split at he
      · rcases List.mem_cons.mp he with rfl | htail
        · exact hcall
        · by_cases hp : step.pass_result_to_next = true
          · rw [if_pos hp] at htail
            exact ih _ _ _ (objLookup_jsSpread_pres hcp1 _) e htail
          · rw [if_neg hp] at htail
            exact ih _ _ _ hcp1 e htail
      · rcases List.mem_singleton.mp he with rfl
        exact hcall

/-- One unfolding of the loop: when the head step's post-injection payload
carries the key, every call payload in the whole trace carries it. -/
theorem seqLoop_cons_trace_key (cfg : OrchestrationConfig) (channel : Channel)
    (step : SeqStep) (rest : List SeqStep) (cp : Obj) (results : List JsValue)
    (st : ExecState) (k : String)
    (h : objLookup (seqInject step cp results) k ≠ none) :
    ∀ e ∈ (seqLoop cfg channel (step :: rest) cp results st).trace,
      objLookup e.payload k ≠ none := by
  intro e he
  simp only [seqLoop] at he
  have hcall : objLookup (objMerge (seqInject step cp results) step.params) k ≠ none :=
    objLookup_objMerge_pres _ _ _ h
  split at he
  · rcases List.mem_cons.mp he with rfl | htail
    · exact hcall
    · by_cases hp : step.pass_result_to_next = true
      · rw [if_pos hp] at htail
        exact seqLoop_key_invariant cfg channel k _ _ _ _
          (objLookup_jsSpread_pres h _) e htail
      · rw [if_neg hp] at htail
        exact seqLoop_key_invariant cfg channel k _ _ _ _ h e htail
  · rcases List.mem_singleton.mp he with rfl
    exact hcall

/-- C10 (amended): Once a sequence step with `use_previous_result` set
has injected the preceding step's data under `previousResult`, the field is
present in the payload handed to every subsequent executed step of the
sequence — including steps whose flag is unset — because no operation of
the loop removes keys. (Its *value*, however, is not always the most
recently injected one: a later `pass_result_to_next` merge of result data
containing a `previousResult` field, or step params containing one,
overwrites it — see the counterexample.) -/
theorem c10_previousResult_persists :
    (∀ (cfg : OrchestrationConfig) (channel : Channel) (steps : List SeqStep)
        (cp : Obj) (results : List JsValue) (st : ExecState),
        objLookup cp "previousResult" ≠ none →
        ∀ e ∈ (seqLoop cfg channel steps cp results st).trace,
          objLookup e.payload "previousResult" ≠ none) ∧
    (∀ (cfg : OrchestrationConfig) (channel : Channel) (step : SeqStep)
        (rest : List SeqStep) (cp : Obj) (results : List JsValue)
        (st : ExecState) (v : JsValue),
        step.use_previous_result = true →
        results.getLast? = some v →
        ∀ e ∈ (seqLoop cfg channel (step :: rest) cp results st).trace,
          objLookup e.payload "previousResult" ≠ none) := by
  constructor
  · intro cfg channel steps cp results st h
    exact seqLoop_key_invariant cfg channel "previousResult" steps cp results st h
  · intro cfg channel step rest cp results st v hupr hlast
    apply seqLoop_cons_trace_key
    unfold seqInject
    rw [hupr, hlast, objLookup_objSet_self]
    simp

/-- Configuration for the C10 scenario: one provider, caching off. -/
def c10Cfg : OrchestrationConfig :=
  { mcp_servers := [("M", { endpoint := { server_name := some "m" } })],
    routing_rules := [], workflows := [],
    integration_settings := { result_caching := false, cache_duration := 60 } }

/-- Serialized payload of the first sequence step's call. -/
def c10J0 : String := objStringify [("k", .num 0)]

/-- Serialized payload of the second sequence step's call (after the
`previousResult` injection). -/
def c10J1 : String := objStringify [("previousResult", .str "d0"), ("k", .num 1)]

/-- A channel whose second answer is an object that itself contains a
`previousResult` field. -/
def c10Channel : Channel := fun _ _ json =>
  if json = c10J1 then (.ok (.obj [("previousResult", .str "evil")]), 1)
  else if json = c10J0 then (.ok (.str "d0"), 1)
  else (.ok (.str "z"), 1)

/-- Step 0: plain call. -/
def c10Step0 : SeqStep := { mcp := "M", tool := "t0", params := [("k", .num 0)] }

/-- Step 1: injects the previous result and passes its own result on. -/
def c10Step1 : SeqStep :=
  { mcp := "M", tool := "t1", params := [("k", .num 1)],
    use_previous_result := true, pass_result_to_next := true }

/-- Step 2: plain call, `use_previous_result` unset. -/
def c10Step2 : SeqStep := { mcp := "M", tool := "t2", params := [("k", .num 2)] }

/-- The three-step sequence of the C10 scenario. -/
def c10Steps : List SeqStep := [c10Step0, c10Step1, c10Step2]

/-- Witness for the amended C10: in the concrete run starting at the
injecting step, the later step's call payload still carries the
`previousResult` field. -/
theorem c10_witness :
    objLookup ((⟨"M", "t2",
        [("previousResult", JsValue.str "evil"), ("k", JsValue.num 2)]⟩ : SeqCall)).payload
      "previousResult" ≠ none :=
  c10_previousResult_persists.2 c10Cfg c10Channel c10Step1 [c10Step2] []
    [JsValue.str "d0"] st0 (JsValue.str "d0") rfl rfl
    ⟨"M", "t2", [("previousResult", JsValue.str "evil"), ("k", JsValue.num 2)]⟩
    (by
      have h : (seqLoop c10Cfg c10Channel (c10Step1 :: [c10Step2]) []
          [JsValue.str "d0"] st0).trace =
          [⟨"M", "t1", [("previousResult", JsValue.str "d0"), ("k", JsValue.num 1)]⟩,
           ⟨"M", "t2", [("previousResult", JsValue.str "evil"), ("k", JsValue.num 2)]⟩] := rfl
      rw [h]
      exact List.mem_cons_of_mem _ (List.mem_cons_self _ _))

/-- C10 counterexample: In the concrete three-step sequence, step 1
injects `previousResult := "d0"`, but its own result data — merged into the
payload by `pass_result_to_next` — contains a `previousResult` field, so
step 2 (whose `use_previous_result` flag is unset) receives
`previousResult = "evil"`, not the most recently injected value `"d0"`:
the field persists but does not always hold the most recently injected
value. -/
theorem c10_counterexample :
    ((executeSequence c10Cfg c10Channel c10Steps [] st0).trace.get? 1).map
        (fun e => objLookup e.payload "previousResult") = some (some (.str "d0")) ∧
      ((executeSequence c10Cfg c10Channel c10Steps [] st0).trace.get? 2).map
        (fun e => objLookup e.payload "previousResult") = some (some (.str "evil")) ∧
      (c10Steps.get? 2).map (fun s => s.use_previous_result) = some false ∧
      JsValue.str "evil" ≠ JsValue.str "d0" :=
  ⟨rfl, rfl, rfl, by
    intro h
    injection h with h2
    exact absurd h2 (by decide)⟩

end Orch
